import Mathlib

/-
Verification development for the POP-SORTE lottery core.

Embedded components:
* Calendar engine, schedule resolver and concurso calculator
  (src/unnamed/part_000: getBrazilDateComponents, getBrazilDayOfWeek,
  getBrazilMonth, getBrazilDayOfMonth, isNoDrawDay, isEarlyDrawDay,
  getDrawTimeHour, isValidDrawDay, buildScheduleForDate,
  getNextValidDrawDate, getCurrentDrawSchedule, calculateConcurso).
* Winner-determination engine (src/admin/validator.js: LotteryValidator with
  matchNumbers, getPrizeTier, validateEntry, getWinningLevel, getWinners).

Modelling conventions:
* An instant is an integer number of seconds since the Unix epoch; a civil day
  in the fixed UTC-3 calendar is an integer day number (days since 1970-01-01).
  The source's two day-of-week helpers (manual UTC-3 arithmetic and the
  Intl America/Sao_Paulo formatter) agree on the fixed UTC-3 calendar and are
  modelled by one function.
* JavaScript strings are Lean strings; a possibly-undefined string field is an
  `Option String`; JavaScript truthiness of such a field is `some s` with
  `s ≠ ""`.  JavaScript `trim`/`toUpperCase`/`<` are modelled directly on the
  character list (`jsTrim`, `jsToUpperCase`, `strLt`); `toUpperCase` is ASCII
  upper-casing, which agrees with JavaScript on the status vocabulary used by
  the program.
* `Array.prototype.sort` is a stable sort (ES2019); with the comparator of
  `getWinners`, which is a total preorder, the stable sorted list is unique,
  so it is modelled by insertion sort with the comparator's "less or equal".
-/

/-! ### Civil-calendar arithmetic -/

/-- Civil date (year, month 1-12, day 1-31) of a day number (days since
1970-01-01) in the proleptic Gregorian calendar. -/
def civilFromDays (z0 : Int) : Int × Nat × Nat :=
  let z : Int := z0 + 719468
  let era : Int := z / 146097
  let doe : Nat := (z % 146097).toNat
  let yoe : Nat := (doe - doe / 1460 + doe / 36524 - doe / 146096) / 365
  let doy : Nat := doe - (365 * yoe + yoe / 4 - yoe / 100)
  let mp : Nat := (5 * doy + 2) / 153
  let d : Nat := doy - (153 * mp + 2) / 5 + 1
  let m : Nat := if mp < 10 then mp + 3 else mp - 9
  (era * 400 + (yoe : Int) + (if m ≤ 2 then 1 else 0), m, d)

/-- Day number (days since 1970-01-01) of a civil date. -/
def daysFromCivil (y0 : Int) (m d : Nat) : Int :=
  let y : Int := y0 - (if m ≤ 2 then 1 else 0)
  let era : Int := y / 400
  let yoe : Nat := (y % 400).toNat
  let mp : Nat := if 2 < m then m - 3 else m + 9
  let doy : Nat := (153 * mp + 2) / 5 + d - 1
  let doe : Nat := yoe * 365 + yoe / 4 - yoe / 100 + doy
  era * 146097 + (doe : Int) - 719468

example : daysFromCivil 1970 1 1 = 0 := by decide
example : civilFromDays 0 = (1970, 1, 1) := by decide
example : daysFromCivil 2025 12 15 = 20437 := by decide
example : civilFromDays 20437 = (2025, 12, 15) := by decide

/-- Civil day number of an instant in the fixed UTC-3 calendar
(getBrazilDateComponents: Brazil time is the instant minus three hours). -/
def brazilDay (t : Int) : Int := (t - 3 * 60 * 60) / 86400

/-- Instant of civil midnight (00:00:00 UTC-3) of a Brazil civil day,
as used by `new Date(dateStr + "T00:00:00-03:00")` in the source. -/
def midnightBRT (d : Int) : Int := d * 86400 + 3 * 60 * 60

/-- Day of week of an instant's Brazil civil day, 0 = Sunday .. 6 = Saturday
(source getBrazilDayOfWeek; 1970-01-01 was a Thursday, weekday 4). -/
def getBrazilDayOfWeek (t : Int) : Int := (brazilDay t + 4) % 7

/-- Month of an instant's Brazil civil day, 0-indexed (0 = January), as the
source getBrazilMonth returns. -/
def getBrazilMonth (t : Int) : Nat := (civilFromDays (brazilDay t)).2.1 - 1

/-- Day of month of an instant's Brazil civil day (source getBrazilDayOfMonth). -/
def getBrazilDayOfMonth (t : Int) : Nat := (civilFromDays (brazilDay t)).2.2

/-- No-draw day: Dec 25 or Jan 1 of the Brazil civil calendar (source isNoDrawDay;
months are 0-indexed there, December is 11 and January is 0). -/
def isNoDrawDay (t : Int) : Bool :=
  (getBrazilMonth t == 11 && getBrazilDayOfMonth t == 25) ||
  (getBrazilMonth t == 0 && getBrazilDayOfMonth t == 1)

/-- Early-draw day: Dec 24 or Dec 31 of the Brazil civil calendar (source isEarlyDrawDay). -/
def isEarlyDrawDay (t : Int) : Bool :=
  getBrazilMonth t == 11 && (getBrazilDayOfMonth t == 24 || getBrazilDayOfMonth t == 31)

/-- Draw hour: 17 on early-draw days, 20 otherwise (source getDrawTimeHour). -/
def getDrawTimeHour (t : Int) : Nat := if isEarlyDrawDay t then 17 else 20

/-- Valid draw day: not a Sunday and not a no-draw day (source isValidDrawDay). -/
def isValidDrawDay (t : Int) : Bool :=
  !(getBrazilDayOfWeek t == 0) && !(isNoDrawDay t)

/-- Day-level reading of `isValidDrawDay`: validity of the civil day `d`,
evaluated (as the source does for probe dates) at that day's Brazil midnight. -/
def validDrawDayD (d : Int) : Bool := isValidDrawDay (midnightBRT d)

/-! ### Schedule resolver -/

/-- Draw schedule for one civil day (source buildScheduleForDate):
`drawDate` is the Brazil midnight instant, `cutoff` is one second before the
draw hour on the same civil day, `regStart` is 20:00:01 of the previous civil
day. -/
structure DrawSchedule where
  drawDate : Int
  drawHour : Nat
  cutoff : Int
  regStart : Int
deriving DecidableEq

/-- Source buildScheduleForDate, on the civil day number. -/
def buildScheduleForDate (d : Int) : DrawSchedule :=
  { drawDate := midnightBRT d
    drawHour := getDrawTimeHour (midnightBRT d)
    cutoff := midnightBRT d + (getDrawTimeHour (midnightBRT d)) * 3600 - 1
    regStart := midnightBRT (d - 1) + 20 * 3600 + 1 }

/-- Day-by-day scan for the first valid draw day, with fuel (the loop bodies of
getNextValidDrawDate and of the second phase of getCurrentDrawSchedule). -/
def scanValidDay : Int → Nat → Option Int
  | _, 0 => none
  | d, Nat.succ n =>
    if isValidDrawDay (midnightBRT d) then some d else scanValidDay (d + 1) n

/-- Source getNextValidDrawDate: first valid draw day in the 14-day window
starting at (and including) `fromDay`; `none` models the thrown
"No valid draw date found in range" error. -/
def getNextValidDrawDate (fromDay : Int) : Option Int := scanValidDay fromDay 14

/-- Source getCurrentDrawSchedule, as a function of the current instant:
if today (the Brazil civil day of `now`) is a valid draw day and `now` is at or
before today's cutoff, return today's schedule; otherwise scan the following 14
days for the next valid draw day.  `none` models the thrown
"No valid draw date found" error. -/
def getCurrentDrawSchedule (now : Int) : Option DrawSchedule :=
  if isValidDrawDay (midnightBRT (brazilDay now)) = true ∧
      now ≤ (buildScheduleForDate (brazilDay now)).cutoff then
    some (buildScheduleForDate (brazilDay now))
  else
    (scanValidDay (brazilDay now + 1) 14).map buildScheduleForDate

/-! ### Concurso calculator -/

/-- Source CONCURSO_REFERENCE.number. -/
def CONCURSO_REFERENCE_number : Int := 6903

/-- Source CONCURSO_REFERENCE.date (2025-12-15T00:00:00-03:00), as its Brazil
civil day number. -/
def CONCURSO_REFERENCE_day : Int := daysFromCivil 2025 12 15

/-- Forward walk of calculateConcurso: starting at `cursor`, step forward `n`
days, counting the valid draw days among the days stepped onto (the source
checks validity of each cursor day at its Brazil noon; noon and midnight of a
civil day have the same Brazil civil day). -/
def countValidForward : Int → Nat → Nat
  | _, 0 => 0
  | cursor, Nat.succ n =>
    (if isValidDrawDay (midnightBRT (cursor + 1) + 43200) then 1 else 0) +
      countValidForward (cursor + 1) n

/-- Backward walk of calculateConcurso: starting at `cursor`, step backward `n`
days, counting the valid draw days among the days stepped onto. -/
def countValidBackward : Int → Nat → Nat
  | _, 0 => 0
  | cursor, Nat.succ n =>
    (if isValidDrawDay (midnightBRT (cursor - 1) + 43200) then 1 else 0) +
      countValidBackward (cursor - 1) n

/-- Source calculateConcurso on the target's Brazil civil day number: walk
day-by-day from the reference date toward the target, counting valid draw days
stepped onto, and add or subtract the count. -/
def calculateConcurso (targetDay : Int) : Int :=
  if CONCURSO_REFERENCE_day ≤ targetDay then
    CONCURSO_REFERENCE_number +
      (countValidForward CONCURSO_REFERENCE_day (targetDay - CONCURSO_REFERENCE_day).toNat : Int)
  else
    CONCURSO_REFERENCE_number -
      (countValidBackward CONCURSO_REFERENCE_day (CONCURSO_REFERENCE_day - targetDay).toNat : Int)

/-- Iterated "next valid draw day strictly after": hop `n` times, each hop via
the source's getNextValidDrawDate from the following day.  `nthValidFrom d n`
is the n-th valid draw day strictly after `d` (for `n ≥ 1`). -/
def nthValidFrom : Int → Nat → Option Int
  | d, 0 => some d
  | d, Nat.succ n =>
    match getNextValidDrawDate (d + 1) with
    | none => none
    | some d2 => nthValidFrom d2 n

example : calculateConcurso CONCURSO_REFERENCE_day = 6903 := by decide
example : calculateConcurso (CONCURSO_REFERENCE_day + 1) = 6904 := by decide
example : calculateConcurso (CONCURSO_REFERENCE_day - 1) = 6903 := by decide
example : calculateConcurso (CONCURSO_REFERENCE_day - 2) = 6902 := by decide
example : validDrawDayD (daysFromCivil 2025 12 14) = false := by decide
example : validDrawDayD (daysFromCivil 2025 12 16) = true := by decide
example : nthValidFrom CONCURSO_REFERENCE_day 3 = some (CONCURSO_REFERENCE_day + 3) := by decide

/-! ### Winner-determination engine (src/admin/validator.js) -/

/-- JavaScript truthiness of a possibly-undefined string field:
`undefined` and the empty string are falsy. -/
def truthyOpt : Option String → Bool
  | none => false
  | some s => !(s == "")

/-- JavaScript String.prototype.trim on the character list. -/
def jsTrim (s : String) : String :=
  String.mk (((s.data.dropWhile Char.isWhitespace).reverse.dropWhile Char.isWhitespace).reverse)

/-- JavaScript String.prototype.toUpperCase restricted to ASCII letters (which
covers the status/validity vocabulary the validator compares against). -/
def jsToUpperCase (s : String) : String := String.mk (s.data.map Char.toUpper)

/-- The validator's `.toString().trim().toUpperCase()` normalisation. -/
def normStr (s : String) : String := jsToUpperCase (jsTrim s)

example : normStr "  valid " = "VALID" := by decide
example : normStr "INVÁLIDO" = "INVÁLIDO" := by decide

/-- Accepted "valid" statuses (source allowedValidStatuses). -/
def allowedValidStatuses : List String := ["VALID", "VALIDATED", "VALIDADO"]

/-- Pending-like statuses (source blockedPendingStatuses). -/
def blockedPendingStatuses : List String := ["GENERATED", "PENDING", "ALL PENDING"]

/-- A winning-numbers record as stored by setResults. -/
structure ContestResult where
  contest : String
  drawDate : String
  winningNumbers : List Int
deriving DecidableEq

/-- A lottery entry as the validator reads it.  `status` and `csvStatus` are
strings with `""` standing for an absent field (observationally equivalent to
`undefined` here, both being falsy); `validity` and `invalidReasonCode` keep
the present/absent distinction as `Option`. -/
structure Entry where
  platform : String
  gameId : String
  whatsapp : String
  chosenNumbers : List Int
  drawDate : String
  contest : String
  status : String
  csvStatus : String
  validity : Option String
  invalidReasonCode : Option String
deriving DecidableEq

/-- Prize tier record (source getPrizeTier's returned objects). -/
structure PrizeTier where
  tier : String
  color : String
  priority : Nat
  badge : String
deriving DecidableEq

/-- Source getPrizeTier. -/
def getPrizeTier : Nat → PrizeTier
  | 5 => ⟨"GRAND PRIZE", "gold", 1, "badge-gold"⟩
  | 4 => ⟨"2nd PRIZE", "silver", 2, "badge-silver"⟩
  | 3 => ⟨"3rd PRIZE", "#CD7F32", 3, "badge-bronze"⟩
  | 2 => ⟨"CONSOLATION", "green", 4, "badge-green"⟩
  | _ => ⟨"NO PRIZE", "gray", 5, ""⟩

/-- A validation outcome; fields the source object omits are `none`. -/
structure ValidationOutcome where
  validated : Bool
  message : Option String := none
  gate : Option String := none
  validity : Option String := none
  status : Option String := none
  «matches» : Option Nat := none
  matchedNumbers : Option (List Int) := none
  prizeTier : Option PrizeTier := none
  winningNumbers : Option (List Int) := none
deriving DecidableEq

/-- The `${contest}_${drawDate}` key of the contestResults map. -/
def resultKey (contest drawDate : String) : String := contest ++ "_" ++ drawDate

/-- Source getContestResult after setResults: the last record written under the
key (the forEach of setResults overwrites earlier records with later ones). -/
def getContestResult (results : List ContestResult) (contest drawDate : String) :
    Option ContestResult :=
  results.foldl
    (fun acc r => if resultKey r.contest r.drawDate == resultKey contest drawDate then some r else acc)
    none

/-- Source matchNumbers: count the chosen numbers present in the winning list
and collect them in chosen order. -/
def matchNumbers (chosenNumbers winningNumbers : List Int) : Nat × List Int :=
  chosenNumbers.foldl
    (fun acc num => if winningNumbers.contains num then (acc.1 + 1, acc.2 ++ [num]) else acc)
    (0, [])

/-- The `entry.status || entry.csvStatus || ''` fallback of validateEntry. -/
def statusRaw (e : Entry) : String :=
  if e.status == "" then (if e.csvStatus == "" then "" else e.csvStatus) else e.status

/-- The normalised status the status gate compares against. -/
def statusValue (e : Entry) : String := normStr (statusRaw e)

/-- Steps 3-4 of validateEntry: winning-numbers lookup and match. -/
def winnerCheckPhase (results : List ContestResult) (e : Entry) : ValidationOutcome :=
  match getContestResult results e.contest e.drawDate with
  | none => { validated := false, message := some "No winning numbers set for this contest" }
  | some r =>
    { validated := true
      «matches» := some (matchNumbers e.chosenNumbers r.winningNumbers).1
      matchedNumbers := some (matchNumbers e.chosenNumbers r.winningNumbers).2
      prizeTier := some (getPrizeTier (matchNumbers e.chosenNumbers r.winningNumbers).1)
      winningNumbers := some r.winningNumbers }

/-- The manual status check of validateEntry (its "PRIORITY 2" section),
followed by the winning-numbers phase when the status does not block. -/
def statusPhase (results : List ContestResult) (e : Entry) : ValidationOutcome :=
  if statusValue e == "INVALID" || statusValue e == "INVÁLIDO" then
    { validated := false
      message := some (if truthyOpt e.invalidReasonCode then
          "Ticket rejected: " ++ e.invalidReasonCode.getD ""
        else "Ticket status is INVALID. Winner check is not allowed.")
      gate := some "STATUS_INVALID"
      status := some (statusValue e) }
  else if blockedPendingStatuses.contains (statusValue e) ||
      (!(statusValue e == "") && !(allowedValidStatuses.contains (statusValue e))) then
    { validated := false
      message := some "Ticket is not validated. Winner check is not allowed."
      gate := some "STATUS_NOT_VALIDATED"
      status := some (statusValue e) }
  else
    winnerCheckPhase results e

/-- Source validateEntry.  Note the control flow of the source: when the
recharge `validity` field is present (truthy) and normalises to "VALID",
execution falls through into the manual status check, not directly to the
winning-numbers lookup. -/
def validateEntry (results : List ContestResult) (e : Entry) : ValidationOutcome :=
  if truthyOpt e.validity then
    if normStr (e.validity.getD "") == "INVALID" then
      { validated := false
        message := some (if truthyOpt e.invalidReasonCode then
            "Recharge validation failed: " ++ e.invalidReasonCode.getD ""
          else "Ticket failed recharge validation. Winner check not allowed.")
        gate := some "RECHARGE_INVALID"
        validity := some (normStr (e.validity.getD "")) }
    else if !(normStr (e.validity.getD "") == "VALID") then
      { validated := false
        message := some "Ticket validity unknown. Winner check not allowed."
        gate := some "VALIDITY_UNKNOWN"
        validity := some (normStr (e.validity.getD "")) }
    else
      statusPhase results e
  else
    statusPhase results e

/-- An element of getWinners' output: the entry together with its validation
and the group's winning level (the source spreads the entry's own fields). -/
structure Winner where
  entry : Entry
  validation : ValidationOutcome
  winningLevel : Nat
deriving DecidableEq

/-- Source getWinningLevel: highest `matches` among validated members. -/
def getWinningLevel (group : List (Entry × ValidationOutcome)) : Nat :=
  group.foldl
    (fun highest p => if p.2.validated then Nat.max highest (p.2.«matches».getD 0) else highest)
    0

/-- The status filter at the top of getWinners. -/
def statusEligible (e : Entry) : Bool := allowedValidStatuses.contains (normStr e.status)

/-- The `${platform}_${contest}_${drawDate}` grouping key of getWinners. -/
def groupKey (e : Entry) : String := e.platform ++ "_" ++ e.contest ++ "_" ++ e.drawDate

/-- Insertion-ordered list of distinct keys, as Object.values enumerates the
groups object (first-occurrence order). -/
def firstOccurrences (l : List String) : List String :=
  l.foldl (fun acc k => if acc.contains k then acc else acc ++ [k]) []

/-- The entries filtered by the status gate of getWinners. -/
def eligibleEntries (entries : List Entry) : List Entry := entries.filter statusEligible

/-- One group of getWinners: the eligible entries with the given key, each
paired with its validation. -/
def groupFor (results : List ContestResult) (eligible : List Entry) (k : String) :
    List (Entry × ValidationOutcome) :=
  (eligible.filter (fun e => groupKey e == k)).map (fun e => (e, validateEntry results e))

/-- The winners contributed by one group: nothing when the group's highest
validated match level is 0, otherwise every validated member at that level. -/
def groupWinners (results : List ContestResult) (eligible : List Entry) (k : String) :
    List Winner :=
  if getWinningLevel (groupFor results eligible k) == 0 then []
  else
    ((groupFor results eligible k).filter
        (fun p => p.2.validated && p.2.«matches» == some (getWinningLevel (groupFor results eligible k)))).map
      (fun p => { entry := p.1, validation := p.2,
                  winningLevel := getWinningLevel (groupFor results eligible k) })

/-- getWinners before its final sort: the groups' winners in group insertion
order. -/
def winnersUnsorted (results : List ContestResult) (entries : List Entry) : List Winner :=
  (firstOccurrences ((eligibleEntries entries).map groupKey)).flatMap
    (groupWinners results (eligibleEntries entries))

/-- JavaScript `<` on strings: lexicographic comparison of the character
sequences. -/
def charListLt : List Char → List Char → Bool
  | [], [] => false
  | [], _ :: _ => true
  | _ :: _, [] => false
  | a :: as, b :: bs => if a < b then true else if b < a then false else charListLt as bs

/-- JavaScript `<` on strings. -/
def strLt (a b : String) : Bool := charListLt a.data b.data

/-- "a sorts at or before b" for getWinners' comparator
`(a, b) => a.contest === b.contest ? b.validation.matchcount - a.validation.matchcount : (a.contest > b.contest ? 1 : -1)` (matchcount standing for the matches field):
ascending contest, and descending matches within a contest. -/
def winnerLEb (a b : Winner) : Bool :=
  if a.entry.contest == b.entry.contest then
    Nat.ble (b.validation.«matches».getD 0) (a.validation.«matches».getD 0)
  else
    strLt a.entry.contest b.entry.contest

/-- Propositional form of `winnerLEb`. -/
def winnerLE (a b : Winner) : Prop := winnerLEb a b = true

instance : DecidableRel winnerLE :=
  fun a b => inferInstanceAs (Decidable (winnerLEb a b = true))

/-- Source getWinners: filter by status, group by platform+contest+drawDate,
keep each group's highest-level validated entries, and stable-sort by the
comparator. -/
def getWinners (results : List ContestResult) (entries : List Entry) : List Winner :=
  List.insertionSort winnerLE (winnersUnsorted results entries)

/-! ### Spec-side definitions used to state claims -/

/-- Modelled from the claim wording of C3: the number of valid draw days
strictly between the reference date and the target date, with both endpoints
excluded. -/
def specCountStrictlyBetween (a b : Int) : Nat :=
  ((Finset.Ioo (min a b) (max a b)).filter (fun x => validDrawDayD x = true)).card

/-- Modelled from the claim wording of C2: every adjacent pair of the list has
the element with at least as many matches first (so an element with strictly
more matches never follows one with fewer). -/
def sortedByMatchesDescending : List Winner → Bool
  | [] => true
  | [_] => true
  | a :: b :: t =>
    Nat.ble (b.validation.«matches».getD 0) (a.validation.«matches».getD 0) &&
      sortedByMatchesDescending (b :: t)

/-! ### Calendar lemmas -/

theorem brazilDay_midnight_add (d r : Int) (h1 : 0 ≤ r) (h2 : r < 86400) :
    brazilDay (midnightBRT d + r) = d := by
  unfold brazilDay midnightBRT
  omega

theorem brazilDay_midnight (d : Int) : brazilDay (midnightBRT d) = d := by
  unfold brazilDay midnightBRT
  omega

theorem isValidDrawDay_midnight_add (d r : Int) (h1 : 0 ≤ r) (h2 : r < 86400) :
    isValidDrawDay (midnightBRT d + r) = validDrawDayD d := by
  unfold validDrawDayD isValidDrawDay isNoDrawDay getBrazilDayOfWeek getBrazilMonth
    getBrazilDayOfMonth
  rw [brazilDay_midnight_add d r h1 h2, brazilDay_midnight d]

theorem countValidForward_succ (c : Int) (n : Nat) :
    countValidForward c (n + 1) =
      (if validDrawDayD (c + 1) = true then 1 else 0) + countValidForward (c + 1) n := by
  have h := isValidDrawDay_midnight_add (c + 1) 43200 (by norm_num) (by norm_num)
  simp only [countValidForward, h]

theorem countValidBackward_succ (c : Int) (n : Nat) :
    countValidBackward c (n + 1) =
      (if validDrawDayD (c - 1) = true then 1 else 0) + countValidBackward (c - 1) n := by
  have h := isValidDrawDay_midnight_add (c - 1) 43200 (by norm_num) (by norm_num)
  simp only [countValidBackward, h]

theorem countValidForward_add (n m : Nat) : ∀ a : Int,
    countValidForward a (n + m) = countValidForward a n + countValidForward (a + (n : Int)) m := by
  induction n with
  | zero =>
    intro a
    simp [countValidForward]
  | succ k ih =>
    intro a
    have e1 : k + 1 + m = (k + m) + 1 := by omega
    rw [e1, countValidForward_succ, countValidForward_succ, ih (a + 1)]
    have e2 : a + ((k + 1 : Nat) : Int) = a + 1 + (k : Int) := by push_cast; ring
    rw [e2]
    omega

theorem countValidForward_card : ∀ (n : Nat) (a : Int),
    countValidForward a n =
      ((Finset.Ioc a (a + (n : Int))).filter (fun x => validDrawDayD x = true)).card := by
  intro n
  induction n with
  | zero =>
    intro a
    simp [countValidForward]
  | succ k ih =>
    intro a
    rw [countValidForward_succ, ih (a + 1)]
    have hins : Finset.Ioc a (a + ((k + 1 : Nat) : Int)) =
        insert (a + 1) (Finset.Ioc (a + 1) (a + 1 + (k : Int))) := by
      ext x
      simp only [Finset.mem_Ioc, Finset.mem_insert]
      push_cast
      omega
    rw [hins, Finset.filter_insert]
    cases hv : validDrawDayD (a + 1) with
    | false => simp [hv]
    | true =>
      rw [if_pos rfl, if_pos rfl, Finset.card_insert_of_not_mem]
      · omega
      · simp [Finset.mem_filter, Finset.mem_Ioc]

theorem countValidBackward_card : ∀ (n : Nat) (a : Int),
    countValidBackward a n =
      ((Finset.Ico (a - (n : Int)) a).filter (fun x => validDrawDayD x = true)).card := by
  intro n
  induction n with
  | zero =>
    intro a
    simp [countValidBackward]
  | succ k ih =>
    intro a
    rw [countValidBackward_succ, ih (a - 1)]
    have hins : Finset.Ico (a - ((k + 1 : Nat) : Int)) a =
        insert (a - 1) (Finset.Ico (a - 1 - (k : Int)) (a - 1)) := by
      ext x
      simp only [Finset.mem_Ico, Finset.mem_insert]
      push_cast
      omega
    rw [hins, Finset.filter_insert]
    cases hv : validDrawDayD (a - 1) with
    | false => simp [hv]
    | true =>
      rw [if_pos rfl, if_pos rfl, Finset.card_insert_of_not_mem]
      · omega
      · simp [Finset.mem_filter, Finset.mem_Ico]

theorem countValidForward_block : ∀ (k : Nat) (a : Int), 0 < k →
    (∀ x : Int, a < x → x < a + (k : Int) → validDrawDayD x = false) →
    validDrawDayD (a + (k : Int)) = true →
    countValidForward a k = 1 := by
  intro k
  induction k with
  | zero =>
    intro a h
    exact absurd h (by omega)
  | succ k ih =>
    intro a _ hmid hend
    rw [countValidForward_succ]
    cases k with
    | zero =>
      have h1 : validDrawDayD (a + 1) = true := by
        have := hend
        push_cast at this
        exact this
      rw [if_pos h1]
      simp [countValidForward]
    | succ k2 =>
      have h0 : validDrawDayD (a + 1) = false := by
        apply hmid
        · omega
        · push_cast
          omega
      rw [h0]
      simp only [Bool.false_eq_true, if_false, Nat.zero_add]
      apply ih (a + 1)
      · omega
      · intro x hx1 hx2
        apply hmid x (by omega)
        push_cast at hx2 ⊢
        omega
      · have he : a + 1 + ((k2 + 1 : Nat) : Int) = a + ((k2 + 1 + 1 : Nat) : Int) := by
          push_cast
          ring
        rw [he]
        exact hend

theorem scanValidDay_spec : ∀ (n : Nat) (d d' : Int), scanValidDay d n = some d' →
    d ≤ d' ∧ d' < d + (n : Int) ∧ validDrawDayD d' = true ∧
      ∀ x : Int, d ≤ x → x < d' → validDrawDayD x = false := by
  intro n
  induction n with
  | zero =>
    intro d d' h
    simp [scanValidDay] at h
  | succ k ih =>
    intro d d' h
    simp only [scanValidDay] at h
    by_cases hv : isValidDrawDay (midnightBRT d) = true
    · rw [if_pos hv] at h
      obtain rfl : d = d' := by simpa using h
      refine ⟨le_refl d, by push_cast; omega, hv, ?_⟩
      intro x hx1 hx2
      omega
    · rw [if_neg hv] at h
      obtain ⟨h1, h2, h3, h4⟩ := ih (d + 1) d' h
      refine ⟨by omega, by push_cast at h2 ⊢; omega, h3, ?_⟩
      intro x hx1 hx2
      by_cases hxd : x = d
      · subst hxd
        exact Bool.not_eq_true _ ▸ Bool.of_not_eq_true hv
      · exact h4 x (by omega) hx2

theorem nthValidFrom_spec : ∀ (n : Nat) (d d' : Int), nthValidFrom d n = some d' →
    d ≤ d' ∧ countValidForward d (d' - d).toNat = n := by
  intro n
  induction n with
  | zero =>
    intro d d' h
    obtain rfl : d = d' := by simpa [nthValidFrom] using h
    refine ⟨le_refl d, ?_⟩
    simp [countValidForward]
  | succ k ih =>
    intro d d' h
    simp only [nthValidFrom] at h
    cases hg : getNextValidDrawDate (d + 1) with
    | none =>
      rw [hg] at h
      simp at h
    | some d1 =>
      rw [hg] at h
      obtain ⟨hle, hcount⟩ := ih d1 d' h
      obtain ⟨h1, h2, hvalid, hinv⟩ := scanValidDay_spec 14 (d + 1) d1 hg
      have hsplit : (d' - d).toNat = (d1 - d).toNat + (d' - d1).toNat := by omega
      rw [hsplit, countValidForward_add]
      have hblk : countValidForward d (d1 - d).toNat = 1 := by
        apply countValidForward_block
        · omega
        · intro x hx1 hx2
          exact hinv x (by omega) (by omega)
        · have he : d + (((d1 - d).toNat : Nat) : Int) = d1 := by omega
          rw [he]
          exact hvalid
      have hd1 : d + (((d1 - d).toNat : Nat) : Int) = d1 := by omega
      rw [hblk, hd1, hcount]
      exact ⟨by omega, by omega⟩

/-! ### Claims C3 and C4: the concurso calculator -/

/-- C3 (corrected): the walk of calculateConcurso does not count the days
strictly between the endpoints only — it also counts the target day.  For the
target one day after the reference (2025-12-16, a valid Tuesday) there is no
day strictly between the endpoints, yet calculateConcurso moves by one. -/
theorem claim_C3_counterexample :
    calculateConcurso (CONCURSO_REFERENCE_day + 1) ≠
      CONCURSO_REFERENCE_number +
        (specCountStrictlyBetween CONCURSO_REFERENCE_day (CONCURSO_REFERENCE_day + 1) : Int) ∧
    calculateConcurso (CONCURSO_REFERENCE_day + 1) = 6904 ∧
    specCountStrictlyBetween CONCURSO_REFERENCE_day (CONCURSO_REFERENCE_day + 1) = 0 := by
  decide

/-- C3 (amended): for every target day, calculateConcurso equals the reference
number plus (target at or after reference) or minus (target before reference)
the count of valid draw days in the walk's half-open range, which excludes the
reference day and includes the target day: forward the valid days in
(reference, target], backward the valid days in [target, reference). -/
theorem claim_C3 (t : Int) :
    (CONCURSO_REFERENCE_day ≤ t →
      calculateConcurso t = CONCURSO_REFERENCE_number +
        (((Finset.Ioc CONCURSO_REFERENCE_day t).filter (fun x => validDrawDayD x = true)).card : Int)) ∧
    (t < CONCURSO_REFERENCE_day →
      calculateConcurso t = CONCURSO_REFERENCE_number -
        (((Finset.Ico t CONCURSO_REFERENCE_day).filter (fun x => validDrawDayD x = true)).card : Int)) := by
  constructor
  · intro h
    unfold calculateConcurso
    rw [if_pos h, countValidForward_card]
    have he : CONCURSO_REFERENCE_day + (((t - CONCURSO_REFERENCE_day).toNat : Nat) : Int) = t := by
      omega
    rw [he]
  · intro h
    unfold calculateConcurso
    rw [if_neg (by omega), countValidBackward_card]
    have he : CONCURSO_REFERENCE_day - (((CONCURSO_REFERENCE_day - t).toNat : Nat) : Int) = t := by
      omega
    rw [he]

/-- Witness for C3 at concrete targets one week after and three days before the
reference date. -/
theorem claim_C3_witness :
    calculateConcurso (CONCURSO_REFERENCE_day + 7) = CONCURSO_REFERENCE_number +
      (((Finset.Ioc CONCURSO_REFERENCE_day (CONCURSO_REFERENCE_day + 7)).filter
          (fun x => validDrawDayD x = true)).card : Int) ∧
    calculateConcurso (CONCURSO_REFERENCE_day - 3) = CONCURSO_REFERENCE_number -
      (((Finset.Ico (CONCURSO_REFERENCE_day - 3) CONCURSO_REFERENCE_day).filter
          (fun x => validDrawDayD x = true)).card : Int) :=
  ⟨(claim_C3 (CONCURSO_REFERENCE_day + 7)).1 (by decide),
   (claim_C3 (CONCURSO_REFERENCE_day - 3)).2 (by decide)⟩

/-- C4 (confirmed): calculateConcurso of the reference day is exactly 6903; the
N-th valid draw day strictly after the reference (obtained by iterating the
source's next-valid-draw-date scan) has concurso 6903 + N; and the concurso is
strictly increasing along that sequence of valid draw days. -/
theorem claim_C4 :
    calculateConcurso CONCURSO_REFERENCE_day = 6903 ∧
    (∀ (N : Nat) (d : Int), nthValidFrom CONCURSO_REFERENCE_day N = some d →
      calculateConcurso d = 6903 + (N : Int)) ∧
    (∀ (M N : Nat) (dM dN : Int), nthValidFrom CONCURSO_REFERENCE_day M = some dM →
      nthValidFrom CONCURSO_REFERENCE_day N = some dN → M < N →
      calculateConcurso dM < calculateConcurso dN) := by
  have key : ∀ (N : Nat) (d : Int), nthValidFrom CONCURSO_REFERENCE_day N = some d →
      calculateConcurso d = 6903 + (N : Int) := by
    intro N d h
    obtain ⟨hle, hcount⟩ := nthValidFrom_spec N CONCURSO_REFERENCE_day d h
    unfold calculateConcurso
    rw [if_pos hle, hcount]
    rfl
  refine ⟨?_, key, ?_⟩
  · have h0 := key 0 CONCURSO_REFERENCE_day rfl
    simpa using h0
  · intro M N dM dN hM hN hlt
    rw [key M dM hM, key N dN hN]
    omega

/-- Witness for C4: the third valid draw day after 2025-12-15 is 2025-12-18 and
its concurso is 6906; monotonicity at the first and third such days. -/
theorem claim_C4_witness :
    calculateConcurso (CONCURSO_REFERENCE_day + 3) = 6903 + ((3 : Nat) : Int) ∧
    calculateConcurso (CONCURSO_REFERENCE_day + 1) < calculateConcurso (CONCURSO_REFERENCE_day + 3) :=
  ⟨claim_C4.2.1 3 (CONCURSO_REFERENCE_day + 3) (by decide),
   claim_C4.2.2 1 3 (CONCURSO_REFERENCE_day + 1) (CONCURSO_REFERENCE_day + 3)
     (by decide) (by decide) (by decide)⟩

/-! ### Claims C7 and C8: schedule resolver and calendar -/

theorem getDrawTimeHour_cases (t : Int) : getDrawTimeHour t = 17 ∨ getDrawTimeHour t = 20 := by
  unfold getDrawTimeHour
  split
  · exact Or.inl rfl
  · exact Or.inr rfl

theorem cutoff_eq (d : Int) :
    (buildScheduleForDate d).cutoff = midnightBRT d + (getDrawTimeHour (midnightBRT d)) * 3600 - 1 :=
  rfl

theorem brazilDay_cutoff_sub_one (d : Int) :
    brazilDay ((buildScheduleForDate d).cutoff - 1) = d := by
  rw [cutoff_eq]
  rcases getDrawTimeHour_cases (midnightBRT d) with h | h <;>
    rw [h] <;> unfold brazilDay midnightBRT <;> omega

theorem brazilDay_cutoff_add_one (d : Int) :
    brazilDay ((buildScheduleForDate d).cutoff + 1) = d := by
  rw [cutoff_eq]
  rcases getDrawTimeHour_cases (midnightBRT d) with h | h <;>
    rw [h] <;> unfold brazilDay midnightBRT <;> omega

/-- C7 (confirmed): for a valid draw day, getCurrentDrawSchedule one second
before that day's cutoff returns that day's schedule, and one second after the
cutoff returns the schedule of the next valid draw day strictly after it (the
first valid day of the at-most-14-day forward scan); and whenever the current
Brazil civil day is not a valid draw day, the result is the schedule of the
scan that starts at the day after today and covers at most 14 days. -/
theorem claim_C7 :
    (∀ d : Int, validDrawDayD d = true →
      getCurrentDrawSchedule ((buildScheduleForDate d).cutoff - 1) =
          some (buildScheduleForDate d) ∧
        ∀ d' : Int, getNextValidDrawDate (d + 1) = some d' →
          getCurrentDrawSchedule ((buildScheduleForDate d).cutoff + 1) =
              some (buildScheduleForDate d') ∧
            d < d' ∧ validDrawDayD d' = true ∧
            ∀ x : Int, d < x → x < d' → validDrawDayD x = false) ∧
    (∀ t : Int, validDrawDayD (brazilDay t) = false →
      getCurrentDrawSchedule t =
        (getNextValidDrawDate (brazilDay t + 1)).map buildScheduleForDate) := by
  constructor
  · intro d hd
    constructor
    · unfold getCurrentDrawSchedule
      rw [brazilDay_cutoff_sub_one]
      rw [if_pos ⟨hd, by omega⟩]
    · intro d' hnext
      have hspec := scanValidDay_spec 14 (d + 1) d' hnext
      obtain ⟨h1, h2, h3, h4⟩ := hspec
      refine ⟨?_, by omega, h3, ?_⟩
      · unfold getCurrentDrawSchedule
        rw [brazilDay_cutoff_add_one]
        rw [if_neg (by intro hcon; omega)]
        have hsc : scanValidDay (d + 1) 14 = some d' := hnext
        rw [hsc]
        rfl
      · intro x hx1 hx2
        exact h4 x (by omega) hx2
  · intro t ht
    have ht2 : isValidDrawDay (midnightBRT (brazilDay t)) = false := ht
    unfold getCurrentDrawSchedule getNextValidDrawDate
    rw [if_neg]
    intro hcon
    rw [ht2] at hcon
    exact absurd hcon.1 (by simp)

/-- Witness for C7 on Monday 2025-12-15 (next valid day Tuesday 2025-12-16)
and on Sunday 2025-12-21 at noon. -/
theorem claim_C7_witness :
    getCurrentDrawSchedule ((buildScheduleForDate (daysFromCivil 2025 12 15)).cutoff - 1) =
        some (buildScheduleForDate (daysFromCivil 2025 12 15)) ∧
    getCurrentDrawSchedule ((buildScheduleForDate (daysFromCivil 2025 12 15)).cutoff + 1) =
        some (buildScheduleForDate (daysFromCivil 2025 12 15 + 1)) ∧
    getCurrentDrawSchedule (midnightBRT (daysFromCivil 2025 12 21) + 43200) =
      (getNextValidDrawDate
          (brazilDay (midnightBRT (daysFromCivil 2025 12 21) + 43200) + 1)).map
        buildScheduleForDate :=
  ⟨(claim_C7.1 (daysFromCivil 2025 12 15) (by decide)).1,
   ((claim_C7.1 (daysFromCivil 2025 12 15) (by decide)).2
      (daysFromCivil 2025 12 15 + 1) (by decide)).1,
   claim_C7.2 (midnightBRT (daysFromCivil 2025 12 21) + 43200) (by decide)⟩

theorem isValidDrawDay_eq_false_iff (t : Int) :
    isValidDrawDay t = false ↔ (getBrazilDayOfWeek t = 0 ∨ isNoDrawDay t = true) := by
  unfold isValidDrawDay
  cases hw : (getBrazilDayOfWeek t == 0) <;> cases hn : isNoDrawDay t <;>
    simp_all [beq_iff_eq]

/-- C8 (confirmed): isValidDrawDay is false exactly when the instant's Brazil
civil day is a Sunday (day numbers congruent to 3 mod 7, 1970-01-04 being a
Sunday), December 25 (0-indexed month 11) or January 1 (0-indexed month 0);
concrete checks: Christmas and New Year are invalid, a Sunday is invalid, and
the early-draw days December 24 and December 31 are valid draw days. -/
theorem claim_C8 :
    (∀ t : Int, isValidDrawDay t = false ↔
      (brazilDay t % 7 = 3 ∨
        (getBrazilMonth t = 11 ∧ getBrazilDayOfMonth t = 25) ∨
        (getBrazilMonth t = 0 ∧ getBrazilDayOfMonth t = 1))) ∧
    isValidDrawDay (midnightBRT (daysFromCivil 2025 12 25)) = false ∧
    isValidDrawDay (midnightBRT (daysFromCivil 2026 1 1)) = false ∧
    isValidDrawDay (midnightBRT (daysFromCivil 2025 12 21)) = false ∧
    isValidDrawDay (midnightBRT (daysFromCivil 2025 12 24)) = true ∧
    isValidDrawDay (midnightBRT (daysFromCivil 2025 12 31)) = true ∧
    isEarlyDrawDay (midnightBRT (daysFromCivil 2025 12 24)) = true ∧
    isEarlyDrawDay (midnightBRT (daysFromCivil 2025 12 31)) = true := by
  refine ⟨?_, by decide, by decide, by decide, by decide, by decide, by decide, by decide⟩
  intro t
  rw [isValidDrawDay_eq_false_iff]
  unfold isNoDrawDay getBrazilDayOfWeek
  simp only [Bool.or_eq_true, Bool.and_eq_true, beq_iff_eq]
  constructor
  · rintro (hw | h)
    · left
      omega
    · right
      exact h
  · rintro (hw | h)
    · left
      omega
    · right
      exact h

/-! ### Concrete fixtures for the validator claims -/

/-- One contest with winning numbers 1-5 on 2025-12-20. -/
def resultsA : List ContestResult := [⟨"6907", "2025-12-20", [1, 2, 3, 4, 5]⟩]

/-- A validated POPN1 entry with three matching numbers. -/
def entryA : Entry :=
  ⟨"POPN1", "1111111111", "", [1, 2, 3, 90, 91], "2025-12-20", "6907", "VALID", "", none, none⟩

/-- A validated POPLUZ entry (same contest and draw date as entryA) with four
matching numbers. -/
def entryB : Entry :=
  ⟨"POPLUZ", "2222222222", "", [1, 2, 3, 4, 90], "2025-12-20", "6907", "VALID", "", none, none⟩

/-- A validated entry with zero matching numbers. -/
def entryZero : Entry :=
  ⟨"POPN1", "3333333333", "", [10, 11, 12, 13, 14], "2025-12-20", "6907", "VALID", "", none, none⟩

/-- An entry carrying validity "VALID" from the recharge validator but a
manual status of "PENDING". -/
def entryC5 : Entry :=
  ⟨"POPN1", "1111111111", "", [1, 2, 3, 4, 5], "2025-12-20", "6907", "PENDING", "",
    some "VALID", none⟩

/-- An entry with no validity field and status "PENDING". -/
def entryC6 : Entry :=
  ⟨"POPN1", "4444444444", "", [1, 2, 3, 4, 5], "2025-12-20", "6907", "PENDING", "", none, none⟩

/-- An entry with no validity field and an empty (missing) status. -/
def entryC6empty : Entry :=
  ⟨"POPN1", "5555555555", "", [1, 2, 3, 4, 5], "2025-12-20", "6907", "", "", none, none⟩

/-! ### Claim C5: the recharge-validity gate -/

/-- C5 (code bug): the validity gate behaves as claimed for "INVALID" (gate
RECHARGE_INVALID, carrying invalidReasonCode, even when status reads "VALID")
and for unknown values (gate VALIDITY_UNKNOWN), but validity "VALID" does NOT
short-circuit the manual status path: the source falls through into the status
check, contradicting its own comments ("validity === 'VALID' -> proceed to
winner check" and "Fallback to manual status check (if validity not set)").
With validity "VALID", status "PENDING" and winning numbers present, the entry
is rejected with gate STATUS_NOT_VALIDATED instead of reaching the
winning-numbers lookup. -/
theorem claim_C5 :
    validateEntry resultsA entryC5 =
      { validated := false,
        message := some "Ticket is not validated. Winner check is not allowed.",
        gate := some "STATUS_NOT_VALIDATED",
        status := some "PENDING" } ∧
    validateEntry resultsA entryC5 ≠ winnerCheckPhase resultsA entryC5 ∧
    (validateEntry resultsA { entryC5 with validity := some "INVALID" }).gate =
      some "RECHARGE_INVALID" ∧
    (validateEntry resultsA { entryC5 with validity := some "INVALID", status := "VALID" }).gate =
      some "RECHARGE_INVALID" ∧
    (validateEntry resultsA { entryC5 with validity := some "INVALID", invalidReasonCode := some "NO_RECHARGE" }).message =
      some "Recharge validation failed: NO_RECHARGE" ∧
    (validateEntry resultsA { entryC5 with validity := some "maybe" }).gate =
      some "VALIDITY_UNKNOWN" := by
  decide

/-! ### Claim C6: the manual status gate -/

/-- C6 (amended): with no (truthy) validity field, a status normalising to
"INVALID" or "INVÁLIDO" is rejected with gate STATUS_INVALID; a nonempty
normalised status outside the accepted set is rejected with gate
STATUS_NOT_VALIDATED; but an empty or missing status bypasses the status gate
and proceeds to the winning-numbers phase. -/
theorem claim_C6 (results : List ContestResult) (e : Entry)
    (hv : truthyOpt e.validity = false) :
    ((statusValue e = "INVALID" ∨ statusValue e = "INVÁLIDO") →
      validateEntry results e =
        { validated := false,
          message := some (if truthyOpt e.invalidReasonCode then
              "Ticket rejected: " ++ e.invalidReasonCode.getD ""
            else "Ticket status is INVALID. Winner check is not allowed."),
          gate := some "STATUS_INVALID",
          status := some (statusValue e) }) ∧
    (statusValue e ≠ "INVALID" → statusValue e ≠ "INVÁLIDO" → statusValue e ≠ "" →
      allowedValidStatuses.contains (statusValue e) = false →
      validateEntry results e =
        { validated := false,
          message := some "Ticket is not validated. Winner check is not allowed.",
          gate := some "STATUS_NOT_VALIDATED",
          status := some (statusValue e) }) ∧
    (statusValue e = "" → validateEntry results e = winnerCheckPhase results e) := by
  have hve : validateEntry results e = statusPhase results e := by
    unfold validateEntry
    rw [if_neg (by simp [hv])]
  refine ⟨?_, ?_, ?_⟩
  · intro h
    rw [hve]
    unfold statusPhase
    rcases h with h | h <;> rw [h] <;> rw [if_pos (by decide)]
  · intro h1 h2 h3 h4
    rw [hve]
    unfold statusPhase
    rw [if_neg (by simp only [Bool.or_eq_true, beq_iff_eq]; tauto)]
    rw [if_pos]
    simp only [Bool.or_eq_true, Bool.and_eq_true, Bool.not_eq_true', beq_eq_false_iff_ne]
    exact Or.inr ⟨h3, h4⟩
  · intro h0
    rw [hve]
    unfold statusPhase
    rw [h0]
    rw [if_neg (by decide), if_neg (by decide)]

/-- Witness for C6: the "PENDING" entry is rejected by the status gate. -/
theorem claim_C6_witness :
    statusValue entryC6 = "PENDING" ∧
    validateEntry resultsA entryC6 =
      { validated := false,
        message := some "Ticket is not validated. Winner check is not allowed.",
        gate := some "STATUS_NOT_VALIDATED",
        status := some (statusValue entryC6) } :=
  ⟨by decide,
   (claim_C6 resultsA entryC6 (by decide)).2.1 (by decide) (by decide) (by decide) (by decide)⟩

/-- C6 (counterexample to the claim as stated): an entry with an empty status
and no validity field is not rejected with gate STATUS_NOT_VALIDATED — it
proceeds to the winner check and validates. -/
theorem claim_C6_counterexample :
    truthyOpt entryC6empty.validity = false ∧
    statusValue entryC6empty = "" ∧
    (validateEntry resultsA entryC6empty).validated = true ∧
    (validateEntry resultsA entryC6empty).gate = none := by
  decide

/-! ### Claims C9 and C10: the entry matcher -/

theorem matchNumbers_foldl (winning : List Int) : ∀ (l : List Int) (acc : Nat × List Int),
    l.foldl (fun acc num => if winning.contains num then (acc.1 + 1, acc.2 ++ [num]) else acc)
        acc =
      (acc.1 + (l.filter (fun n => winning.contains n)).length,
        acc.2 ++ l.filter (fun n => winning.contains n)) := by
  intro l
  induction l with
  | nil =>
    intro acc
    simp
  | cons x xs ih =>
    intro acc
    simp only [List.foldl_cons, List.filter_cons]
    cases hx : winning.contains x with
    | true =>
      rw [if_pos rfl, if_pos rfl, ih]
      simp only [List.length_cons, List.append_assoc, List.singleton_append, Prod.mk.injEq]
      exact ⟨by omega, trivial⟩
    | false =>
      rw [if_neg (by simp), if_neg (by simp), ih]

theorem matchNumbers_eq_filter (chosen winning : List Int) :
    matchNumbers chosen winning =
      ((chosen.filter (fun n => winning.contains n)).length,
        chosen.filter (fun n => winning.contains n)) := by
  unfold matchNumbers
  rw [matchNumbers_foldl]
  simp

/-- C9 (confirmed): matchNumbers returns the count of the chosen numbers
present in the winning list together with exactly those numbers, in the order
they occur in the chosen list (a sublist of it); and the spec's concrete
example holds. -/
theorem claim_C9 :
    (∀ chosen winning : List Int,
      (matchNumbers chosen winning).1 =
          (chosen.filter (fun n => winning.contains n)).length ∧
        (matchNumbers chosen winning).2 = chosen.filter (fun n => winning.contains n) ∧
        (matchNumbers chosen winning).2.Sublist chosen) ∧
    matchNumbers [10, 20, 30, 40, 50] [10, 20, 99, 98, 97] = (2, [10, 20]) := by
  refine ⟨?_, by decide⟩
  intro chosen winning
  rw [matchNumbers_eq_filter]
  exact ⟨rfl, rfl, List.filter_sublist chosen⟩

/-- Entry whose five chosen numbers are all the single value 7. -/
def entrySevens : Entry :=
  ⟨"POPN1", "1234567890", "", [7, 7, 7, 7, 7], "2025-12-20", "6907", "VALID", "", none, none⟩

/-- Contest whose winning numbers contain 7. -/
def resultsSevens : List ContestResult := [⟨"6907", "2025-12-20", [7, 1, 2, 3, 4]⟩]

/-- C10 (confirmed): neither matchNumbers nor validateEntry enforces
distinctness of the chosen numbers: a value repeated k times that occurs in
the winning list is counted k times and appears k times in matchedNumbers, and
the concrete entry choosing [7,7,7,7,7] against a winning list containing 7 is
validated with matches 5 and the priority-1 grand-prize tier. -/
theorem claim_C10 :
    (∀ (k : Nat) (x : Int),
      matchNumbers (List.replicate k x) [x] = (k, List.replicate k x)) ∧
    validateEntry resultsSevens entrySevens =
      { validated := true,
        «matches» := some 5,
        matchedNumbers := some [7, 7, 7, 7, 7],
        prizeTier := some ⟨"GRAND PRIZE", "gold", 1, "badge-gold"⟩,
        winningNumbers := some [7, 1, 2, 3, 4] } := by
  refine ⟨?_, by decide⟩
  intro k x
  rw [matchNumbers_eq_filter]
  have hx : ([x] : List Int).contains x = true := by simp
  simp [List.filter_replicate, hx]

/-! ### Claim C2: the output order of getWinners -/

theorem stringDataEq {a b : String} (h : a.data = b.data) : a = b := by
  cases a
  cases b
  exact congrArg String.mk h

theorem charListLt_irrefl : ∀ as : List Char, charListLt as as = false := by
  intro as
  induction as with
  | nil => rfl
  | cons a as ih => simp [charListLt, lt_irrefl, ih]

theorem charListLt_trichotomy : ∀ as bs : List Char,
    as = bs ∨ charListLt as bs = true ∨ charListLt bs as = true := by
  intro as
  induction as with
  | nil =>
    intro bs
    cases bs with
    | nil => exact Or.inl rfl
    | cons b bs => exact Or.inr (Or.inl rfl)
  | cons a as ih =>
    intro bs
    cases bs with
    | nil => exact Or.inr (Or.inr rfl)
    | cons b bs =>
      rcases lt_trichotomy a b with h | h | h
      · exact Or.inr (Or.inl (by simp [charListLt, h]))
      · subst h
        rcases ih bs with h2 | h2 | h2
        · exact Or.inl (by rw [h2])
        · exact Or.inr (Or.inl (by simp [charListLt, lt_irrefl, h2]))
        · exact Or.inr (Or.inr (by simp [charListLt, lt_irrefl, h2]))
      · exact Or.inr (Or.inr (by simp [charListLt, h]))

theorem charListLt_trans : ∀ as bs cs : List Char,
    charListLt as bs = true → charListLt bs cs = true → charListLt as cs = true := by
  intro as
  induction as with
  | nil =>
    intro bs cs h1 h2
    cases bs with
    | nil => exact absurd h1 (by simp [charListLt])
    | cons b bs =>
      cases cs with
      | nil => exact absurd h2 (by simp [charListLt])
      | cons c cs => rfl
  | cons a as ih =>
    intro bs cs h1 h2
    cases bs with
    | nil => exact absurd h1 (by simp [charListLt])
    | cons b bs =>
      cases cs with
      | nil => exact absurd h2 (by simp [charListLt])
      | cons c cs =>
        rcases lt_trichotomy a b with hab | hab | hab
        · rcases lt_trichotomy b c with hbc | hbc | hbc
          · simp [charListLt, lt_trans hab hbc]
          · subst hbc
            simp [charListLt, hab]
          · exact absurd h2 (by simp [charListLt, hbc, asymm hbc])
        · subst hab
          rcases lt_trichotomy a c with hbc | hbc | hbc
          · simp [charListLt, hbc]
          · subst hbc
            have r1 : charListLt as bs = true := by
              simpa [charListLt, lt_irrefl] using h1
            have r2 : charListLt bs cs = true := by
              simpa [charListLt, lt_irrefl] using h2
            simpa [charListLt, lt_irrefl] using ih bs cs r1 r2
          · exact absurd h2 (by simp [charListLt, hbc, asymm hbc])
        · exact absurd h1 (by simp [charListLt, hab, asymm hab])

theorem winnerLE_total : ∀ a b : Winner, winnerLE a b ∨ winnerLE b a := by
  intro a b
  unfold winnerLE winnerLEb
  by_cases h : a.entry.contest = b.entry.contest
  · rw [if_pos (by simp [h]), if_pos (by simp [h])]
    rcases Nat.le_total (b.validation.«matches».getD 0) (a.validation.«matches».getD 0)
      with hle | hle
    · exact Or.inl (by simpa [Nat.ble_eq] using hle)
    · exact Or.inr (by simpa [Nat.ble_eq] using hle)
  · have hne1 : (a.entry.contest == b.entry.contest) = false :=
      beq_eq_false_iff_ne.mpr h
    have hne2 : (b.entry.contest == a.entry.contest) = false :=
      beq_eq_false_iff_ne.mpr (fun hh => h hh.symm)
    rw [if_neg (by rw [hne1]; simp), if_neg (by rw [hne2]; simp)]
    rcases charListLt_trichotomy a.entry.contest.data b.entry.contest.data with h2 | h2 | h2
    · exact absurd (stringDataEq h2) h
    · exact Or.inl h2
    · exact Or.inr h2

theorem winnerLE_trans : ∀ a b c : Winner, winnerLE a b → winnerLE b c → winnerLE a c := by
  intro a b c h1 h2
  unfold winnerLE winnerLEb at h1 h2 ⊢
  by_cases hab : a.entry.contest = b.entry.contest
  · by_cases hbc : b.entry.contest = c.entry.contest
    · rw [if_pos (by simp [hab.trans hbc])]
      rw [if_pos (by simp [hab])] at h1
      rw [if_pos (by simp [hbc])] at h2
      simp only [Nat.ble_eq] at h1 h2 ⊢
      omega
    · have hac : a.entry.contest ≠ c.entry.contest := hab ▸ hbc
      rw [if_neg (by simp [beq_iff_eq, hac])]
      rw [if_neg (by simp [beq_iff_eq, hbc])] at h2
      unfold strLt at h2 ⊢
      rw [hab]
      exact h2
  · by_cases hbc : b.entry.contest = c.entry.contest
    · have hac : a.entry.contest ≠ c.entry.contest := fun hh => hab (hh.trans hbc.symm)
      rw [if_neg (by simp [beq_iff_eq, hac])]
      rw [if_neg (by simp [beq_iff_eq, hab])] at h1
      unfold strLt at h1 ⊢
      rw [← hbc]
      exact h1
    · rw [if_neg (by simp [beq_iff_eq, hab])] at h1
      rw [if_neg (by simp [beq_iff_eq, hbc])] at h2
      unfold strLt at h1 h2
      by_cases hac : a.entry.contest = c.entry.contest
      · rw [hac] at h1
        have := charListLt_trans _ _ _ h2 h1
        rw [charListLt_irrefl] at this
        exact absurd this (by simp)
      · rw [if_neg (by simp [beq_iff_eq, hac])]
        exact charListLt_trans _ _ _ h1 h2

/-- C2 (amended): the output of getWinners is sorted with ascending
lexicographic contest identifier as the primary key and matches descending
only within a contest: every adjacent pair either shares the contest and has
non-increasing matches, or has strictly increasing contest identifiers. -/
theorem claim_C2 (results : List ContestResult) (entries : List Entry) :
    (getWinners results entries).Chain' (fun a b =>
      (a.entry.contest = b.entry.contest ∧
        b.validation.«matches».getD 0 ≤ a.validation.«matches».getD 0) ∨
      (a.entry.contest ≠ b.entry.contest ∧
        strLt a.entry.contest b.entry.contest = true)) := by
  haveI htot : IsTotal Winner winnerLE := ⟨winnerLE_total⟩
  haveI htrans : IsTrans Winner winnerLE := ⟨winnerLE_trans⟩
  have hsorted : List.Sorted winnerLE (getWinners results entries) :=
    List.sorted_insertionSort winnerLE (winnersUnsorted results entries)
  have hchain := List.Pairwise.chain' hsorted
  refine List.Chain'.imp ?_ hchain
  intro a b hab
  unfold winnerLE winnerLEb at hab
  by_cases h : a.entry.contest = b.entry.contest
  · rw [if_pos (by simp [h])] at hab
    exact Or.inl ⟨h, by simpa [Nat.ble_eq] using hab⟩
  · rw [if_neg (by simp [beq_iff_eq, h])] at hab
    exact Or.inr ⟨h, hab⟩

/-- Two contests "1" and "2", both with winning numbers 1-5 on 2025-12-20. -/
def resultsTwoContests : List ContestResult :=
  [⟨"1", "2025-12-20", [1, 2, 3, 4, 5]⟩, ⟨"2", "2025-12-20", [1, 2, 3, 4, 5]⟩]

/-- A validated entry in contest "1" with three matches. -/
def entryContest1 : Entry :=
  ⟨"POPN1", "1111111111", "", [1, 2, 3, 90, 91], "2025-12-20", "1", "VALID", "", none, none⟩

/-- A validated entry in contest "2" with five matches. -/
def entryContest2 : Entry :=
  ⟨"POPN1", "2222222222", "", [1, 2, 3, 4, 5], "2025-12-20", "2", "VALID", "", none, none⟩

/-- C2 (counterexample to the claim as stated): matches descending is not the
primary sort key — the 3-match winner of contest "1" precedes the 5-match
winner of contest "2", so an adjacent pair has strictly more matches second. -/
theorem claim_C2_counterexample :
    sortedByMatchesDescending
        (getWinners resultsTwoContests [entryContest2, entryContest1]) = false ∧
    (getWinners resultsTwoContests [entryContest2, entryContest1]).map
        (fun w => w.validation.«matches».getD 0) = [3, 5] ∧
    (getWinners resultsTwoContests [entryContest2, entryContest1]).map
        (fun w => w.entry.contest) = ["1", "2"] := by
  decide

/-! ### Claim C1: membership in getWinners -/

theorem firstOccurrences_aux : ∀ (l acc : List String) (x : String),
    x ∈ l.foldl (fun acc k => if acc.contains k then acc else acc ++ [k]) acc ↔
      x ∈ acc ∨ x ∈ l := by
  intro l
  induction l with
  | nil =>
    intro acc x
    simp
  | cons k l ih =>
    intro acc x
    simp only [List.foldl_cons]
    by_cases hk : acc.contains k = true
    · rw [if_pos hk, ih]
      simp only [List.mem_cons]
      constructor
      · rintro (h | h)
        · exact Or.inl h
        · exact Or.inr (Or.inr h)
      · rintro (h | h | h)
        · exact Or.inl h
        · subst h
          exact Or.inl (by simpa using hk)
        · exact Or.inr h
    · rw [if_neg hk, ih]
      simp only [List.mem_append, List.mem_singleton, List.mem_cons]
      tauto

theorem mem_firstOccurrences (l : List String) (x : String) :
    x ∈ firstOccurrences l ↔ x ∈ l := by
  unfold firstOccurrences
  rw [firstOccurrences_aux]
  simp

theorem mem_winnersUnsorted (results : List ContestResult) (entries : List Entry) (w : Winner) :
    w ∈ winnersUnsorted results entries ↔
      (statusEligible w.entry = true ∧ w.entry ∈ entries ∧
        w.validation = validateEntry results w.entry ∧
        w.validation.validated = true ∧
        w.winningLevel =
          getWinningLevel (groupFor results (eligibleEntries entries) (groupKey w.entry)) ∧
        w.validation.«matches» = some w.winningLevel ∧
        w.winningLevel ≠ 0) := by
  unfold winnersUnsorted
  rw [List.mem_flatMap]
  constructor
  · rintro ⟨k, hk, hw⟩
    unfold groupWinners at hw
    by_cases hz :
        (getWinningLevel (groupFor results (eligibleEntries entries) k) == 0) = true
    · rw [if_pos hz] at hw
      simp at hw
    · rw [if_neg hz] at hw
      rw [List.mem_map] at hw
      obtain ⟨p, hp, hwp⟩ := hw
      rw [List.mem_filter] at hp
      obtain ⟨hpg, hcond⟩ := hp
      unfold groupFor at hpg
      rw [List.mem_map] at hpg
      obtain ⟨e, he, hpe⟩ := hpg
      rw [List.mem_filter] at he
      obtain ⟨hee, hkey⟩ := he
      subst hpe
      subst hwp
      have hkeq : groupKey e = k := by simpa using hkey
      subst hkeq
      rw [Bool.and_eq_true] at hcond
      obtain ⟨hvd, hmt⟩ := hcond
      have hmem2 : e ∈ entries ∧ statusEligible e = true := by
        have := hee
        unfold eligibleEntries at this
        rw [List.mem_filter] at this
        exact this
      refine ⟨hmem2.2, hmem2.1, rfl, hvd, rfl, ?_, ?_⟩
      · simpa using hmt
      · simpa using hz
  · rintro ⟨hel, hmem, hval, hvd, hlvl, hmatch, hnz⟩
    refine ⟨groupKey w.entry, ?_, ?_⟩
    · rw [mem_firstOccurrences, List.mem_map]
      refine ⟨w.entry, ?_, rfl⟩
      unfold eligibleEntries
      rw [List.mem_filter]
      exact ⟨hmem, hel⟩
    · unfold groupWinners
      rw [← hlvl]
      rw [if_neg (by simpa using hnz)]
      rw [List.mem_map]
      refine ⟨(w.entry, w.validation), ?_, rfl⟩
      rw [List.mem_filter]
      constructor
      · unfold groupFor
        rw [List.mem_map]
        refine ⟨w.entry, ?_, ?_⟩
        · rw [List.mem_filter]
          refine ⟨?_, by simp⟩
          unfold eligibleEntries
          rw [List.mem_filter]
          exact ⟨hmem, hel⟩
        · rw [hval]
      · rw [Bool.and_eq_true]
        exact ⟨hvd, by simpa using hmatch⟩

/-- C1 (amended): an element belongs to getWinners exactly when its entry
passes the status filter, validates, and its match count equals its
platform+contest+drawDate group's maximum validated match count, provided that
maximum is positive (a group whose maximum is 0, or with no validated member,
contributes no winners); moreover, among entries with equal contest and draw
date the grouping key separates entries exactly by platform, so each
platform's top-match entries are determined independently. -/
theorem claim_C1 :
    (∀ (results : List ContestResult) (entries : List Entry) (w : Winner),
      w ∈ getWinners results entries ↔
        (statusEligible w.entry = true ∧ w.entry ∈ entries ∧
          w.validation = validateEntry results w.entry ∧
          w.validation.validated = true ∧
          w.winningLevel =
            getWinningLevel (groupFor results (eligibleEntries entries) (groupKey w.entry)) ∧
          w.validation.«matches» = some w.winningLevel ∧
          w.winningLevel ≠ 0)) ∧
    (∀ e1 e2 : Entry, e1.contest = e2.contest → e1.drawDate = e2.drawDate →
      (groupKey e1 = groupKey e2 ↔ e1.platform = e2.platform)) := by
  constructor
  · intro results entries w
    unfold getWinners
    rw [List.mem_insertionSort]
    exact mem_winnersUnsorted results entries w
  · intro e1 e2 hc hd
    constructor
    · intro h
      unfold groupKey at h
      have h2 := congrArg String.data h
      simp only [String.data_append] at h2
      rw [hc, hd] at h2
      obtain ⟨hp1, -⟩ := List.append_inj' h2 rfl
      obtain ⟨hp2, -⟩ := List.append_inj' hp1 rfl
      obtain ⟨hp3, -⟩ := List.append_inj' hp2 rfl
      obtain ⟨hp4, -⟩ := List.append_inj' hp3 rfl
      exact stringDataEq hp4
    · intro h
      unfold groupKey
      rw [h, hc, hd]

/-- Witness for C1: with one contest and two entries on different platforms
(3 and 4 matches), both platforms' top entries are winners, independently, and
the grouping key separates exactly by platform. -/
theorem claim_C1_witness :
    ({ entry := entryA, validation := validateEntry resultsA entryA,
        winningLevel := 3 } : Winner) ∈ getWinners resultsA [entryA, entryB] ∧
    ({ entry := entryB, validation := validateEntry resultsA entryB,
        winningLevel := 4 } : Winner) ∈ getWinners resultsA [entryA, entryB] ∧
    (groupKey entryA = groupKey entryB ↔ entryA.platform = entryB.platform) :=
  ⟨(claim_C1.1 resultsA [entryA, entryB] _).mpr
      ⟨by decide, by decide, rfl, by decide, by decide, by decide, by decide⟩,
   (claim_C1.1 resultsA [entryA, entryB] _).mpr
      ⟨by decide, by decide, rfl, by decide, by decide, by decide, by decide⟩,
   claim_C1.2 entryA entryB rfl rfl⟩

/-- C1 (counterexample to the claim as stated): a validated entry whose match
count equals its group's maximum (here 0) is nevertheless not returned —
getWinners on a single zero-match validated entry is empty. -/
theorem claim_C1_counterexample :
    (validateEntry resultsA entryZero).validated = true ∧
    (validateEntry resultsA entryZero).«matches» =
      some (getWinningLevel
        (groupFor resultsA (eligibleEntries [entryZero]) (groupKey entryZero))) ∧
    getWinners resultsA [entryZero] = [] := by
  decide
